import Mathlib

/-!
Verification of `flax/nnx/nnx/pure.py`: the `Pure` snapshot type, its call
proxying (`__call__`, `__getattr__`, `__getitem__` with `pure_caller`), and the
conversion functions `pure` / `stateful`.

The graph-splitting collaborator (`flax.nnx.nnx.graph`: `split` / `merge`) and
the proxying helpers (`flax.nnx.nnx.proxy_caller`: `CallableProxy`,
`DelayedAccessor`) are external to the file under analysis, so they are
modelled from the spec: a live graph is a tree of objects whose leaves hold
integer values and whose objects carry named fields and named methods drawn
from a small method language; `split` separates the structure (a `GraphDef`)
from the flattened leaf values (the `GraphState`, a list of integers in
preorder), and `merge` reassembles them, failing on a structural mismatch.
Failures are modelled with `Except String`, the error string standing for the
Python exception, so that unchanged propagation of errors is expressible.
-/

namespace Flax

/-- Modelled from the spec: the small language of methods a live object can
carry.  The spec's exemplar object has "a counter field initialized to 0 and a
method that increments it"; `incr f` increments leaf field `f` and returns its
new value, `getF f` reads leaf field `f` without mutation, `addF f` adds the
integer argument to leaf field `f` and returns the new value, and `constM k`
returns `k` without mutation. -/
inductive MethodImpl where
  | incr (f : String)
  | getF (f : String)
  | addF (f : String)
  | constM (k : Int)
deriving DecidableEq, Repr

mutual
/-- Modelled from the spec: a live graph (a mutable object tree).  A node is
either a value leaf or an object with named child fields and named methods. -/
inductive Node where
  | leaf (v : Int)
  | obj (fields : Fields) (methods : List (String × MethodImpl))
/-- Named fields of a live object, in order. -/
inductive Fields where
  | fnil
  | fcons (name : String) (child : Node) (rest : Fields)
end

mutual
/-- Modelled from the spec: the structural definition produced by the external
split operation — the shape of a graph with the leaf values removed. -/
inductive GraphDef where
  | leafDef
  | objDef (fields : FieldDefs) (methods : List (String × MethodImpl))
/-- Shapes of the named fields of an object, in order. -/
inductive FieldDefs where
  | dnil
  | dcons (name : String) (child : GraphDef) (rest : FieldDefs)
end

deriving instance DecidableEq for Node
deriving instance Repr for Node
deriving instance DecidableEq for GraphDef
deriving instance Repr for GraphDef

/-- Modelled from the spec: the flattened state — the leaf values of a graph in
preorder. -/
abbrev GraphState := List Int

mutual
/-- Structure half of the external split operation. -/
def splitDef : Node → GraphDef
  | .leaf _ => .leafDef
  | .obj fs ms => .objDef (splitDefFields fs) ms
/-- Structure half of split, on field lists. -/
def splitDefFields : Fields → FieldDefs
  | .fnil => .dnil
  | .fcons n c r => .dcons n (splitDef c) (splitDefFields r)
end

mutual
/-- State half of the external split operation: leaf values in preorder. -/
def splitState : Node → GraphState
  | .leaf v => [v]
  | .obj fs _ => splitStateFields fs
/-- State half of split, on field lists. -/
def splitStateFields : Fields → GraphState
  | .fnil => []
  | .fcons _ c r => splitState c ++ splitStateFields r
end

/-- Modelled from the spec: the external split operation
`split(liveGraph) -> (structuralDefinition, flattenedState)`. -/
def split (n : Node) : GraphDef × GraphState := (splitDef n, splitState n)

mutual
/-- Rebuild a node from a structural definition, consuming leaf values from
the front of the state list; errors on a structural mismatch. -/
def mergeAux : GraphDef → GraphState → Except String (Node × GraphState)
  | .leafDef, [] => .error "structural mismatch: missing leaf value"
  | .leafDef, v :: rest => .ok (.leaf v, rest)
  | .objDef fds ms, st =>
    match mergeAuxFields fds st with
    | .error e => .error e
    | .ok (fs, rest) => .ok (.obj fs ms, rest)
/-- Rebuild a field list from field shapes, consuming leaf values. -/
def mergeAuxFields : FieldDefs → GraphState → Except String (Fields × GraphState)
  | .dnil, st => .ok (.fnil, st)
  | .dcons n d r, st =>
    match mergeAux d st with
    | .error e => .error e
    | .ok (c, st1) =>
      match mergeAuxFields r st1 with
      | .error e => .error e
      | .ok (fs, st2) => .ok (.fcons n c fs, st2)
end

/-- Modelled from the spec: the external merge operation
`merge(structuralDefinition, flattenedState) -> liveGraph`; it fails with a
structural-mismatch error when the state does not fit the definition. -/
def merge (d : GraphDef) (st : GraphState) : Except String Node :=
  match mergeAux d st with
  | .error e => .error e
  | .ok (n, []) => .ok n
  | .ok (_, _ :: _) => .error "structural mismatch: unused state entries"

mutual
/-- Merging a split definition against its own state (with any suffix
appended) rebuilds the original node and leaves the suffix. -/
theorem mergeAux_split : ∀ (n : Node) (r : GraphState),
    mergeAux (splitDef n) (splitState n ++ r) = .ok (n, r)
  | .leaf v, r => by simp [splitDef, splitState, mergeAux]
  | .obj fs ms, r => by
    simp [splitDef, splitState, mergeAux, mergeAuxFields_split fs r]
/-- Field-list version of `mergeAux_split`. -/
theorem mergeAuxFields_split : ∀ (fs : Fields) (r : GraphState),
    mergeAuxFields (splitDefFields fs) (splitStateFields fs ++ r) = .ok (fs, r)
  | .fnil, r => by simp [splitDefFields, splitStateFields, mergeAuxFields]
  | .fcons n c rest, r => by
    have h1 := mergeAux_split c (splitStateFields rest ++ r)
    have h2 := mergeAuxFields_split rest r
    simp [splitDefFields, splitStateFields, mergeAuxFields, List.append_assoc, h1, h2]
end

/-- Merging the two halves of a split recovers the original node. -/
theorem merge_split (n : Node) : merge (splitDef n) (splitState n) = .ok n := by
  have h := mergeAux_split n []
  rw [List.append_nil] at h
  simp [merge, h]

/-- Read the integer value of leaf field `f` of an object's field list;
errors when the field is missing or is not a leaf. -/
def Fields.getVal : Fields → String → Except String Int
  | .fnil, f => .error ("AttributeError: " ++ f)
  | .fcons m c r, f =>
    if m = f then
      match c with
      | .leaf v => .ok v
      | .obj _ _ => .error ("TypeError: " ++ f ++ " is not a value leaf")
    else Fields.getVal r f

/-- Overwrite leaf field `f` of an object's field list with a new value. -/
def Fields.setVal : Fields → String → Int → Except String Fields
  | .fnil, f, _ => .error ("AttributeError: " ++ f)
  | .fcons m c r, f, v =>
    if m = f then .ok (.fcons m (.leaf v) r)
    else
      match Fields.setVal r f v with
      | .error e => .error e
      | .ok r2 => .ok (.fcons m c r2)

/-- Find the child node stored under name `f` in an object's field list. -/
def Fields.findChild : Fields → String → Except String Node
  | .fnil, f => .error ("lookup failed: " ++ f)
  | .fcons m c r, f => if m = f then .ok c else Fields.findChild r f

/-- Replace the child node stored under name `f` in an object's field list. -/
def Fields.setChild : Fields → String → Node → Except String Fields
  | .fnil, f, _ => .error ("lookup failed: " ++ f)
  | .fcons m c r, f, c2 =>
    if m = f then .ok (.fcons m c2 r)
    else
      match Fields.setChild r f c2 with
      | .error e => .error e
      | .ok r2 => .ok (.fcons m c r2)

/-- Look up a method by name in an object's method table. -/
def lookupMethod : List (String × MethodImpl) → String → Except String MethodImpl
  | [], f => .error ("lookup failed: " ++ f)
  | (m, impl) :: r, f => if m = f then .ok impl else lookupMethod r f

/-- Modelled from the spec: running a bound method on its live object with one
integer argument, returning the result together with the (possibly mutated)
object — the explicit-state rendering of Python's in-place mutation of
`self`. -/
def runMethod (impl : MethodImpl) (self : Node) (a : Int) : Except String (Int × Node) :=
  match impl, self with
  | .constM k, n => .ok (k, n)
  | .incr f, .obj fs ms =>
    match fs.getVal f with
    | .error e => .error e
    | .ok v =>
      match fs.setVal f (v + 1) with
      | .error e => .error e
      | .ok fs2 => .ok (v + 1, .obj fs2 ms)
  | .getF f, .obj fs ms =>
    match fs.getVal f with
    | .error e => .error e
    | .ok v => .ok (v, .obj fs ms)
  | .addF f, .obj fs ms =>
    match fs.getVal f with
    | .error e => .error e
    | .ok v =>
      match fs.setVal f (v + a) with
      | .error e => .error e
      | .ok fs2 => .ok (v + a, .obj fs2 ms)
  | _, .leaf _ => .error "TypeError: leaf object has no methods"

/-- Direct invocation of a live node (Python `node(*args)`): dispatches to the
node's own `__call__` method. -/
def callNode (n : Node) (a : Int) : Except String (Int × Node) :=
  match n with
  | .leaf _ => .error "TypeError: object is not callable"
  | .obj _ ms =>
    match lookupMethod ms "__call__" with
    | .error _ => .error "TypeError: object is not callable"
    | .ok impl => runMethod impl n a

/-- Modelled from the spec: one step of a deferred access path — a field
access (`.name`) or a key access (`[key]`). -/
inductive AccessStep where
  | attr (name : String)
  | item (key : String)
deriving DecidableEq, Repr

/-- The name an access step resolves with. -/
def AccessStep.name : AccessStep → String
  | .attr n => n
  | .item k => k

/-- Modelled from the spec: a `DelayedAccessor` is an ordered sequence of
field/key access steps, composed at each chaining step and resolved against
the live graph only at final invocation. -/
abbrev DelayedAccessor := List AccessStep

/-- Resolve a deferred accessor against a live node and invoke the resolved
target with one integer argument: intermediate steps descend into child
fields, the final step resolves a method on the reached object, and the
mutation performed by the method is written back along the path — the
explicit-state rendering of `method = accessor(node); out = method(*args)`
mutating `node` through aliasing.  An empty accessor invokes the node itself.
Any resolution or invocation error propagates unchanged. -/
def callAccessor : DelayedAccessor → Node → Int → Except String (Int × Node)
  | [], n, a => callNode n a
  | s :: rest, n, a =>
    match n with
    | .leaf _ => .error ("lookup failed: " ++ s.name)
    | .obj fs ms =>
      match rest with
      | [] =>
        match lookupMethod ms s.name with
        | .error e => .error e
        | .ok impl => runMethod impl (.obj fs ms) a
      | _ :: _ =>
        match Fields.findChild fs s.name with
        | .error e => .error e
        | .ok child =>
          match callAccessor rest child a with
          | .error e => .error e
          | .ok (out, child2) =>
            match Fields.setChild fs s.name child2 with
            | .error e => .error e
            | .ok fs2 => .ok (out, .obj fs2 ms)

/-- The `Pure` snapshot: an immutable pair of a structural definition and a
flattened state (`@struct.dataclass` with fields `_pure_graphdef` and
`_pure_state`). -/
structure Pure where
  _pure_graphdef : GraphDef
  _pure_state : GraphState
deriving DecidableEq, Repr

/-- `Pure.__call__`: merge the stored pair into a live node, invoke the node
directly, split the (possibly mutated) node again, and return the call's
result together with a new snapshot built from the post-call split. -/
def Pure.call (p : Pure) (a : Int) : Except String (Int × Pure) :=
  match merge p._pure_graphdef p._pure_state with
  | .error e => .error e
  | .ok node =>
    match callNode node a with
    | .error e => .error e
    | .ok (out, node2) =>
      let (graphdef, state) := split node2
      .ok (out, Pure.mk graphdef state)

/-- The `pure_caller` closure shared by `Pure.__getattr__` and
`Pure.__getitem__`: merge the stored pair, resolve the deferred accessor and
invoke the resolved method, split the (possibly mutated) node, and return the
result with a new snapshot. -/
def pure_caller (self : Pure) (accessor : DelayedAccessor) (a : Int) :
    Except String (Int × Pure) :=
  match merge self._pure_graphdef self._pure_state with
  | .error e => .error e
  | .ok node =>
    match callAccessor accessor node a with
    | .error e => .error e
    | .ok (out, node2) =>
      let (graphdef, state) := split node2
      .ok (out, Pure.mk graphdef state)

/-- Modelled from the spec: a `CallableProxy` bound to a snapshot — the value
of `snapshot.<name>` / `snapshot[key]` before final invocation.  It carries
the base snapshot and the accumulated deferred accessor. -/
structure PureCallProxy where
  base : Pure
  accessor : DelayedAccessor
deriving DecidableEq, Repr

/-- `Pure.__getattr__`: start a deferred proxy with one field-access step. -/
def Pure.getattr (p : Pure) (name : String) : PureCallProxy :=
  ⟨p, [.attr name]⟩

/-- `Pure.__getitem__`: start a deferred proxy with one key-access step. -/
def Pure.getitem (p : Pure) (key : String) : PureCallProxy :=
  ⟨p, [.item key]⟩

/-- Chaining attribute access on a proxy appends a field-access step. -/
def PureCallProxy.getattr (q : PureCallProxy) (name : String) : PureCallProxy :=
  ⟨q.base, q.accessor ++ [.attr name]⟩

/-- Chaining item access on a proxy appends a key-access step. -/
def PureCallProxy.getitem (q : PureCallProxy) (key : String) : PureCallProxy :=
  ⟨q.base, q.accessor ++ [.item key]⟩

/-- Invoking a proxy forces the accumulated accessor through `pure_caller`. -/
def PureCallProxy.call (q : PureCallProxy) (a : Int) : Except String (Int × Pure) :=
  pure_caller q.base q.accessor a

/-- `stateful(pure)`: create a live node from a `Pure` object by delegating to
the external merge operation on its two stored fields. -/
def stateful (p : Pure) : Except String Node :=
  merge p._pure_graphdef p._pure_state

/-- `pure(node)`: create a `Pure` object from a live node by delegating to the
external split operation. -/
def pure (node : Node) : Pure :=
  let (graphdef, state) := split node
  Pure.mk graphdef state

/-- The possible results of Python attribute lookup on a `Pure` instance. -/
inductive PureAttr where
  | fieldGraphdef (d : GraphDef)
  | fieldState (s : GraphState)
  | proxy (q : PureCallProxy)
deriving Repr

/-- Modelled from the spec: Python attribute lookup on a `Pure` instance.  The
dataclass instance fields `_pure_graphdef` and `_pure_state` are found by
normal lookup and returned directly; `__getattr__` is consulted only for
names normal lookup misses, and since the generated `replace` method is
deleted from the class (`del Pure.replace`), every other name — `replace`
included — falls through to `__getattr__` and yields a deferred proxy. -/
def Pure.attrLookup (p : Pure) (name : String) : PureAttr :=
  if name = "_pure_graphdef" then .fieldGraphdef p._pure_graphdef
  else if name = "_pure_state" then .fieldState p._pure_state
  else .proxy (Pure.getattr p name)

/-- The spec's exemplar stateful object with its counter at `k`: one leaf
field `count` and one method `increment` that increments it. -/
def counterAt (k : Int) : Node :=
  .obj (.fcons "count" (.leaf k) .fnil) [("increment", .incr "count")]

/-- The exemplar counter object with `count` initialized to 0. -/
def counter : Node := counterAt 0

/-- The structural definition of the exemplar counter object. -/
def counterDef : GraphDef :=
  .objDef (.dcons "count" .leafDef .dnil) [("increment", .incr "count")]

/-- A directly callable counter: its `__call__` increments its `count`. -/
def callableCounter : Node :=
  .obj (.fcons "count" (.leaf 0) .fnil) [("__call__", .incr "count")]

/-- The callable counter after one invocation. -/
def callableCounterAfter : Node :=
  .obj (.fcons "count" (.leaf 1) .fnil) [("__call__", .incr "count")]

/-- A subobject with a leaf field `v` and a method `b` adding to it. -/
def innerNode : Node :=
  .obj (.fcons "v" (.leaf 5) .fnil) [("b", .addF "v")]

/-- A parent object holding `innerNode` under field `a`. -/
def parentNode : Node := .obj (.fcons "a" innerNode .fnil) []

/-- Two proxied invocations issued against the same original snapshot (one
trace; neither consumes the other's result). -/
def twoCallsOnSame (p : Pure) (acc1 : DelayedAccessor) (a1 : Int)
    (acc2 : DelayedAccessor) (a2 : Int) :
    Except String (Int × Pure) × Except String (Int × Pure) :=
  let first := pure_caller p acc1 a1
  let second := pure_caller p acc2 a2
  (first, second)

/-- Two proxied invocations of the same accessor and arguments issued one
after the other against the same snapshot. -/
def invokeTwice (p : Pure) (accessor : DelayedAccessor) (a : Int) :
    Except String (Int × Pure) × Except String (Int × Pure) :=
  twoCallsOnSame p accessor a accessor a

/-- C1: Round-trip identity — for every live graph `g`, converting it to a
snapshot with `pure(g)` and back with `stateful(...)` yields the original
graph itself: same structure and same leaf values. -/
theorem round_trip_identity (g : Node) : stateful (Flax.pure g) = .ok g := by
  simp [stateful, Flax.pure, split, merge_split]

/-- C2: Direct invocation postcondition — `s(*args)` merges the stored pair
into a live node, invokes the reconstructed root, re-splits the possibly
mutated node, and returns the call's result paired with a new snapshot built
from the post-call split; the original snapshot's fields are untouched (its
`stateful` conversion still yields the pre-call node). -/
theorem direct_invocation (p : Pure) (a : Int) (node node2 : Node) (out : Int)
    (h1 : merge p._pure_graphdef p._pure_state = .ok node)
    (h2 : callNode node a = .ok (out, node2)) :
    Pure.call p a = .ok (out, Pure.mk (split node2).1 (split node2).2) ∧
    stateful p = .ok node := by
  refine ⟨?_, h1⟩
  simp [Pure.call, h1, h2, split]

/-- Witness for C2 at the callable counter: invoking it increments its count
and the new snapshot is built from the post-call split. -/
theorem direct_invocation_witness :
    merge (Flax.pure callableCounter)._pure_graphdef
        (Flax.pure callableCounter)._pure_state = .ok callableCounter ∧
    callNode callableCounter 0 = .ok (1, callableCounterAfter) ∧
    (Pure.call (Flax.pure callableCounter) 0
        = .ok (1, Pure.mk (split callableCounterAfter).1 (split callableCounterAfter).2) ∧
      stateful (Flax.pure callableCounter) = .ok callableCounter) :=
  ⟨by rfl, by rfl,
    direct_invocation (Flax.pure callableCounter) 0 callableCounter
      callableCounterAfter 1 (by rfl) (by rfl)⟩

/-- C3: State threading — `s.increment()` on the snapshot of a counter at 0
yields `(_, s1)`, `s1.increment()` yields `(_, s2)`, and `s2`'s counter
equals 2, the same final state a live instance reaches after calling the
method twice in sequence. -/
theorem state_threading :
    ∃ s1 s2 : Pure,
      (Pure.getattr (Flax.pure counter) "increment").call 0 = .ok (1, s1) ∧
      (Pure.getattr s1 "increment").call 0 = .ok (2, s2) ∧
      stateful s2 = .ok (counterAt 2) ∧
      (match callAccessor [.attr "increment"] counter 0 with
        | .error e => (.error e : Except String (Int × Node))
        | .ok (_, n1) => callAccessor [.attr "increment"] n1 0)
        = .ok (2, counterAt 2) := by
  refine ⟨Pure.mk counterDef [1], Pure.mk counterDef [2], ?_, ?_, ?_, ?_⟩ <;> rfl

/-- C4: Snapshot immutability and repeatability — a proxied call never
mutates the snapshot's two stored fields (the embedding of the source
methods, which never assign to `self`, returns results without touching the
snapshot), so invoking the same accessor again with the same arguments
yields the same result, and the snapshot remains usable; concretely, after
`increment` is invoked through the counter snapshot, the original snapshot
still reconstructs the pre-call counter. -/
theorem snapshot_immutability (p : Pure) (accessor : DelayedAccessor) (a : Int) :
    (invokeTwice p accessor a).2 = (invokeTwice p accessor a).1 ∧
    stateful p = merge p._pure_graphdef p._pure_state ∧
    (Pure.getattr (Flax.pure counter) "increment").call 0
      = .ok (1, Pure.mk counterDef [1]) ∧
    stateful (Flax.pure counter) = .ok counter :=
  ⟨rfl, rfl, by rfl, by rfl⟩

/-- C5: Error atomicity and pass-through — when resolving the deferred
accessor or invoking the resolved target against the reconstructed live node
fails with an error, `pure_caller` returns exactly that error (not caught,
not wrapped), no new snapshot is produced, and the original snapshot still
reconstructs the same pre-call node. -/
theorem error_atomicity (p : Pure) (accessor : DelayedAccessor) (a : Int)
    (node : Node) (e : String)
    (hm : merge p._pure_graphdef p._pure_state = .ok node)
    (hc : callAccessor accessor node a = .error e) :
    pure_caller p accessor a = .error e ∧ stateful p = .ok node := by
  refine ⟨?_, hm⟩
  simp [pure_caller, hm, hc]

/-- Witness for C5: accessing a missing method on the counter snapshot fails
with the resolution error itself and leaves the snapshot intact. -/
theorem error_atomicity_witness :
    merge (Flax.pure counter)._pure_graphdef (Flax.pure counter)._pure_state
        = .ok counter ∧
    callAccessor [.attr "missing"] counter 0 = .error "lookup failed: missing" ∧
    (pure_caller (Flax.pure counter) [.attr "missing"] 0
        = .error "lookup failed: missing" ∧
      stateful (Flax.pure counter) = .ok counter) :=
  ⟨by rfl, by rfl,
    error_atomicity (Flax.pure counter) [.attr "missing"] 0 counter
      "lookup failed: missing" (by rfl) (by rfl)⟩

/-- C6: Chained access equivalence with a single cycle — chaining attribute
access composes the steps into the single deferred accessor
`[.attr x, .attr y]`, and forcing the chain performs one merge of the stored
pair (used once, via `h`), resolves and invokes the whole path against that
one live node in a single step, and wraps the single post-call split — the
same return value and resulting state as the direct live operation. -/
theorem chained_access_equivalence (p : Pure) (x y : String) (a : Int)
    (node : Node) (h : stateful p = .ok node) :
    ((Pure.getattr p x).getattr y).accessor = [.attr x, .attr y] ∧
    ((Pure.getattr p x).getattr y).call a
      = match callAccessor [.attr x, .attr y] node a with
        | .error e => (.error e : Except String (Int × Pure))
        | .ok (out, node2) => .ok (out, Flax.pure node2) := by
  refine ⟨rfl, ?_⟩
  have hm : merge p._pure_graphdef p._pure_state = .ok node := h
  simp only [PureCallProxy.call, Pure.getattr, PureCallProxy.getattr, pure_caller,
    List.cons_append, List.nil_append, hm]
  cases hca : callAccessor [.attr x, .attr y] node a with
  | error e => rfl
  | ok r =>
    obtain ⟨out, node2⟩ := r
    simp [Flax.pure, split]

/-- Witness for C6 at a nested object: `s.a.b(3)` adds 3 to the inner leaf
through one reconstruct/re-split cycle. -/
theorem chained_access_equivalence_witness :
    stateful (Flax.pure parentNode) = .ok parentNode ∧
    (((Pure.getattr (Flax.pure parentNode) "a").getattr "b").accessor
        = [.attr "a", .attr "b"] ∧
      ((Pure.getattr (Flax.pure parentNode) "a").getattr "b").call 3
        = match callAccessor [.attr "a", .attr "b"] parentNode 3 with
          | .error e => (.error e : Except String (Int × Pure))
          | .ok (out, node2) => .ok (out, Flax.pure node2)) :=
  ⟨by rfl,
    chained_access_equivalence (Flax.pure parentNode) "a" "b" 3 parentNode (by rfl)⟩

/-- Two accessor heads with the same resolution name resolve identically,
whether they are field accesses or key accesses. -/
theorem callAccessor_name_congr (s t : AccessStep) (h : s.name = t.name)
    (rest : DelayedAccessor) (n : Node) (a : Int) :
    callAccessor (s :: rest) n a = callAccessor (t :: rest) n a := by
  cases n with
  | leaf v => simp [callAccessor, h]
  | obj fs ms =>
    cases rest with
    | nil => simp [callAccessor, h]
    | cons u us => simp [callAccessor, h]

/-- C7: Key versus attribute parity — item access starts the same deferred
proxy contract as attribute access, resolving by the key instead of the
name, so `s['k'].method(a)` and `s.k.method(a)` return the same value and
the same resulting snapshot. -/
theorem key_attr_parity (p : Pure) (k m : String) (a : Int) :
    ((Pure.getitem p k).getattr m).call a = ((Pure.getattr p k).getattr m).call a := by
  have hstep : ∀ n : Node,
      callAccessor [AccessStep.item k, AccessStep.attr m] n a
        = callAccessor [AccessStep.attr k, AccessStep.attr m] n a := fun n =>
    callAccessor_name_congr (.item k) (.attr k) rfl [.attr m] n a
  simp only [PureCallProxy.call, Pure.getitem, Pure.getattr, PureCallProxy.getattr,
    pure_caller, List.cons_append, List.nil_append]
  cases merge p._pure_graphdef p._pure_state with
  | error e => rfl
  | ok node => simp [hstep]

/-- C8: Independent divergence and isolation — two proxied calls issued
against the same original snapshot each compute from that snapshot's
original stored state, independently of one another; concretely, two
independent `increment` calls on the counter snapshot both observe count 0
and both produce a snapshot at count 1 (neither sees the other's mutation),
and the original snapshot still reconstructs the pre-call counter, so no
mutation leaks back into it. -/
theorem independent_divergence (p : Pure) (acc1 acc2 : DelayedAccessor)
    (a1 a2 : Int) :
    twoCallsOnSame p acc1 a1 acc2 a2
      = (pure_caller p acc1 a1, pure_caller p acc2 a2) ∧
    twoCallsOnSame (Flax.pure counter) [.attr "increment"] 0 [.attr "increment"] 0
      = (.ok (1, Pure.mk counterDef [1]), .ok (1, Pure.mk counterDef [1])) ∧
    stateful (Flax.pure counter) = .ok counter :=
  ⟨rfl, by rfl, by rfl⟩

/-- C9: Conversion functions are pure delegation — `pure(node)` is exactly
the snapshot built from the external split's output pair, and
`stateful(snap)` is exactly the external merge applied to the two stored
fields; each returns its collaborator's result unchanged (errors included),
with no validation or failure mode of its own. -/
theorem conversion_delegation (n : Node) (p : Pure) :
    Flax.pure n = Pure.mk (split n).1 (split n).2 ∧
    stateful p = merge p._pure_graphdef p._pure_state :=
  ⟨rfl, rfl⟩

/-- C10: Proxying boundary at the public interface — attribute lookup on a
snapshot returns the stored `_pure_graphdef` and `_pure_state` values
directly (normal lookup finds the dataclass fields), while every other name,
including `replace` (whose generated method was deleted from the class),
falls through to `__getattr__` and yields a deferred proxy targeting the
reconstructed graph's own member. -/
theorem proxying_boundary (p : Pure) :
    Pure.attrLookup p "_pure_graphdef" = .fieldGraphdef p._pure_graphdef ∧
    Pure.attrLookup p "_pure_state" = .fieldState p._pure_state ∧
    Pure.attrLookup p "replace" = .proxy (Pure.getattr p "replace") := by
  refine ⟨rfl, ?_, ?_⟩ <;> rfl

end Flax
